import Mathlib

/- A Lean model of the `theme` console labeling tool (`theme/theme.py`,
   class `Theme`).  The pure session state and its transitions are embedded;
   console and file I/O are abstracted away, keeping only their effect on the
   session state. -/

/-- A record of the unmarked table: identifier, text (`none` models a NaN
cell) and label columns.  Extra display columns play no role in the session
state. -/
structure Row where
  id : Int
  text : Option String
  label : Option String
deriving DecidableEq

/-- Entries of `Theme._action_history`: the strings "skip" and "write". -/
inductive HistAct where
  | skip
  | write
deriving DecidableEq

/-- The session state of a `Theme` object.

* `unmarked` models the DataFrame `self._unmarked` (positional rows, and a
  RangeIndex, so label-based and positional access agree);
* `marked` models the DataFrame `self._marked` as a list of
  (index label, row) pairs: rows read from the destination CSV carry labels
  0, 1, ...; a row appended by labeling carries the unmarked positional
  index `i` as its label, because `pd.DataFrame([row])` keeps the row name
  `i` that `self._unmarked.iloc[i]` gave it;
* `unmarked_indices` is the sampling queue, `skipped` is `self._skipped`,
  `marked_indices` is `self._marked_indices`, `action_history` is
  `self._action_history`, `chars_showed` is `self._chars_showed`,
  `show_chars` is the configured character budget. -/
structure ThemeState where
  unmarked : List Row
  marked : List (Int × Row)
  unmarked_indices : List Nat
  skipped : List Nat
  marked_indices : List Nat
  action_history : List HistAct
  chars_showed : Nat
  show_chars : Nat
deriving DecidableEq

/-- `Theme._was_marked`: `self._unmarked[self._id_col][i] in self._marked[self._id_col]`.
In pandas, `value in series` tests membership in the series **index**, so the
identifier of row `i` is compared against the index labels of the marked
table (the first components of `marked`), not against the stored identifier
values. -/
def was_marked (s : ThemeState) (i : Nat) : Bool :=
  match s.unmarked.get? i with
  | some row => s.marked.any (fun p => p.1 == row.id)
  | none => false

/-- The specification's reading of the already-marked test: the identifier of
row `i` occurs among the identifier **values** stored in the marked table.
This definition follows the spec's words, for comparison with `was_marked`,
which follows the source. -/
def id_among_marked_values (s : ThemeState) (i : Nat) : Bool :=
  match s.unmarked.get? i with
  | some row => s.marked.any (fun p => p.2.id == row.id)
  | none => false

/-- `Theme._was_skipped`: `i in self._skipped`. -/
def was_skipped (s : ThemeState) (i : Nat) : Bool :=
  s.skipped.contains i

/-- The gate at the top of each `Theme.run` loop iteration: with `i` the
queue's front (`none` when the queue is empty and the loop ends), `some true`
means the index is discarded (`self._unmarked_indices.pop(0)` and
`continue`), `some false` means the record is rendered and offered to the
operator. -/
def loop_decision (s : ThemeState) : Option Bool :=
  match s.unmarked_indices with
  | [] => none
  | i :: _ => some (was_marked s i || was_skipped s i)

/-- The discard branches of `Theme.run` (`if self._was_marked(i)` /
`if self._was_skipped(i)`): `self._unmarked_indices.pop(0)`; `none` models
the IndexError a pop from an empty queue would raise (unreachable in `run`,
which only pops while the generator yields a front element). -/
def discard_op (s : ThemeState) : Option ThemeState :=
  match s.unmarked_indices with
  | [] => none
  | _ :: rest => some { s with unmarked_indices := rest }

/-- `Theme._skip`: push "skip" onto the history, pop the queue's front,
append it to the skipped list and reset the shown-character counter.  The
cache-file write has no further effect on the session state.  `none` models
the IndexError of popping an empty queue. -/
def skip_op (s : ThemeState) : Option ThemeState :=
  match s.unmarked_indices with
  | [] => none
  | index :: rest =>
    some { s with
      action_history := s.action_history ++ [HistAct.skip]
      unmarked_indices := rest
      skipped := s.skipped ++ [index]
      chars_showed := 0 }

/-- `Theme._back`: with an empty history, report and return unchanged;
otherwise pop the last history entry and undo it, moving the last skipped
(resp. session-marked) index back to the queue's front, dropping the marked
table's last row in the "write" case, and resetting the shown-character
counter.  `none` models the IndexError of `pop(-1)` on an empty list
(unreachable in states produced by the loop). -/
def back_op (s : ThemeState) : Option ThemeState :=
  match s.action_history.getLast? with
  | none => some s
  | some HistAct.skip =>
    match s.skipped.getLast? with
    | none => none
    | some index =>
      some { s with
        action_history := s.action_history.dropLast
        skipped := s.skipped.dropLast
        unmarked_indices := index :: s.unmarked_indices
        chars_showed := 0 }
  | some HistAct.write =>
    match s.marked_indices.getLast? with
    | none => none
    | some index =>
      some { s with
        action_history := s.action_history.dropLast
        marked_indices := s.marked_indices.dropLast
        unmarked_indices := index :: s.unmarked_indices
        marked := s.marked.dropLast
        chars_showed := 0 }

/-- The label-key branch of `Theme.run`: overwrite the label of the current
row (`labelValue` is `self._id2label[label]`), append the row to the marked
table (with its unmarked positional index as pandas row label), push "write"
onto the history (`Theme._write`), pop the queue's front and append it to
`self._marked_indices`.  The shown-character counter is not touched.  `none`
models the lookup or pop failing (unreachable in `run`). -/
def label_op (s : ThemeState) (labelValue : String) : Option ThemeState :=
  match s.unmarked_indices with
  | [] => none
  | index :: rest =>
    match s.unmarked.get? index with
    | none => none
    | some row =>
      some { s with
        marked := s.marked ++ [(Int.ofNat index, { row with label := some labelValue })]
        action_history := s.action_history ++ [HistAct.write]
        unmarked_indices := rest
        marked_indices := s.marked_indices ++ [index] }

/-- What a `Theme._more` call prints: a chunk of text, the END marker, the
CANT SHOW MORE marker for a NaN text, or nothing. -/
inductive MoreResult where
  | chunk (text : String)
  | ended
  | cantShow
  | silent
deriving DecidableEq

/-- `Theme._more` on the current row's text (`none` models a NaN cell):
`start = self._chars_showed`, `stop = min(start + self._show_chars, len(text))`;
report END when `start == len(text)`, otherwise print `text[start:stop]` and
set the counter to `stop` (the guard `stop <= len(text)` always holds, and
its silent else branch is dead code). -/
def more_op (s : ThemeState) (text : Option String) : ThemeState × MoreResult :=
  match text with
  | none => (s, MoreResult.cantShow)
  | some t =>
    let start := s.chars_showed
    let stop := min (start + s.show_chars) t.length
    if start = t.length then (s, MoreResult.ended)
    else if stop ≤ t.length then
      ({ s with chars_showed := stop }, MoreResult.chunk ((t.drop start).take (stop - start)))
    else (s, MoreResult.silent)

/-- The effect of `Theme._show_menu` on the session state: when the text
cell is not NaN, `self._chars_showed += min(len(text), self._show_chars)` —
the counter is increased, not overwritten. -/
def show_menu_op (s : ThemeState) (text : Option String) : ThemeState :=
  match text with
  | none => s
  | some t => { s with chars_showed := s.chars_showed + min t.length s.show_chars }

/-- `self._unmarked_indices = [i for i in range(len(self._unmarked))]` before
the in-place `random.shuffle`. -/
def init_indices (n : Nat) : List Nat := List.range n

/-- The number of unmarked rows whose identifier value occurs among the
identifier values of the marked table.  This follows the spec's words (the
source never computes it); used to compare the spec's startup-queue-length
property with the queue the source builds. -/
def count_already_marked (unmarked : List Row) (marked : List (Int × Row)) : Nat :=
  (unmarked.filter (fun r => marked.any (fun p => p.2.id == r.id))).length

/-- The session state right after `Theme.__init__`: the queue `q` is the
(shuffled) `init_indices`, and the skipped list, session-marked indices,
history and counter are empty/zero (`Theme._initialize_cache` always leaves
`self._skipped = []`, see `init_cache`). -/
def init_state (unmarked : List Row) (marked : List (Int × Row)) (q : List Nat)
    (show_chars : Nat) : ThemeState :=
  { unmarked := unmarked
    marked := marked
    unmarked_indices := q
    skipped := []
    marked_indices := []
    action_history := []
    chars_showed := 0
    show_chars := show_chars }

/-- Python dict assignment `d[k] = v` on the cache (unique keys: replace the
entry when present, append otherwise). -/
def dict_set (cache : List (String × List Nat)) (name : String) (v : List Nat) :
    List (String × List Nat) :=
  if cache.any (fun p => p.1 == name) then
    cache.map (fun p => if p.1 == name then (p.1, v) else p)
  else cache ++ [(name, v)]

/-- Python dict lookup `d[k]` on the cache (`none` models a KeyError). -/
def dict_get (cache : List (String × List Nat)) (name : String) : Option (List Nat) :=
  (cache.find? (fun p => p.1 == name)).map (fun p => p.2)

/-- The ways `Theme._initialize_cache` can fail. -/
inductive InitCacheError where
  | attrMissing
  | keyMissing
deriving DecidableEq

/-- `Theme._initialize_cache`.  A cache value is modelled by its "skipped"
list (after the assignment below the key "skipped" is always present, so the
`if "skipped" not in ...` repair is dead code).  When `cache_skipped` is
set, the cache is loaded from disk, a session name is resolved from operator
input, and then `self._cache[self._session_name] = {"skipped": []}`
unconditionally resets the chosen session's entry.  When `cache_skipped` is
not set, `self._cache` was never assigned, and the unconditional read
`self._cache[self._session_name]` raises AttributeError (`attrMissing`).
Returns the cache dict together with `self._skipped`. -/
def init_cache (cache_skipped : Bool) (diskCache : List (String × List Nat))
    (sessionName : String) :
    Except InitCacheError (List (String × List Nat) × List Nat) :=
  let cacheAttr : Option (List (String × List Nat)) :=
    if cache_skipped then some (dict_set diskCache sessionName []) else none
  match cacheAttr with
  | none => Except.error InitCacheError.attrMissing
  | some cache =>
    match dict_get cache sessionName with
    | none => Except.error InitCacheError.keyMissing
    | some sk => Except.ok (cache, sk)

/-- The ValueError raised by the timed-session part of `Theme._check_values`. -/
inductive ConfigError where
  | sessionWithoutBreak
  | breakWithoutSession
  | sessionNotInt
  | breakNotInt
  | sessionBelowOne
  | breakBelowOne
deriving DecidableEq

/-- Python truthiness of an `Optional[int]`: `None` and `0` are falsy. -/
def py_truthy : Option Int → Bool
  | none => false
  | some n => decide (n ≠ 0)

/-- `isinstance(x, int)` for an `Optional[int]`: `None` is not an int. -/
def py_is_int : Option Int → Bool
  | none => false
  | some _ => true

/-- The timed-session checks of `Theme._check_values`, in source order:
one length truthy without the other; then unguarded `isinstance(..., int)`
checks (which `None` fails); then the `< 1` checks. -/
def check_session_values (sessionMin breakMin : Option Int) : Except ConfigError Unit :=
  if py_truthy sessionMin && !py_truthy breakMin then
    Except.error ConfigError.sessionWithoutBreak
  else if py_truthy breakMin && !py_truthy sessionMin then
    Except.error ConfigError.breakWithoutSession
  else if !py_is_int sessionMin then
    Except.error ConfigError.sessionNotInt
  else if !py_is_int breakMin then
    Except.error ConfigError.breakNotInt
  else if sessionMin.getD 0 < 1 then
    Except.error ConfigError.sessionBelowOne
  else if breakMin.getD 0 < 1 then
    Except.error ConfigError.breakBelowOne
  else Except.ok ()

/-- All row indices currently held by the session, queue first, then the
skipped list, then the indices marked during the session. -/
def allIdx (s : ThemeState) : List Nat :=
  s.unmarked_indices ++ (s.skipped ++ s.marked_indices)

/-- The session-state invariant: no index occurs twice across the queue, the
skipped list and the session-marked indices, and every held index addresses
an unmarked row. -/
def SessionInv (s : ThemeState) : Prop :=
  (allIdx s).Nodup ∧ ∀ i ∈ allIdx s, i < s.unmarked.length

/-- Each row index lies in at most one of the queue, the skipped list and
the session-marked indices. -/
def AtMostOne (s : ThemeState) : Prop :=
  ∀ i : Nat,
    (i ∈ s.unmarked_indices → i ∉ s.skipped ∧ i ∉ s.marked_indices) ∧
    (i ∈ s.skipped → i ∉ s.marked_indices)

/-- A fresh resumed session for C1: one unmarked row with identifier 7 at the
queue's front, and a marked table read back from disk holding one row with
identifier value 7 (at pandas index label 0). -/
def c1state : ThemeState :=
  init_state [⟨7, some ("text"), none⟩] [(0, ⟨7, some ("text"), some ("pos")⟩)] [0] 500

/-- The unmarked table for C2: four rows; index 3 was skipped and persisted
by the previous run. -/
def c2state : ThemeState :=
  init_state
    [⟨0, some ("a"), none⟩, ⟨1, some ("b"), none⟩, ⟨2, some ("c"), none⟩, ⟨3, some ("d"), none⟩]
    [] [3, 0, 1, 2] 500

/-- A fresh resumed session for C5 and C9-style scenarios: one unmarked row
whose identifier 0 coincides with the marked table's index label 0, so the
loop's was-marked discard fires. -/
def c5state : ThemeState :=
  init_state [⟨0, some ("t"), none⟩] [(0, ⟨0, some ("t"), some ("x")⟩)] [0] 500

/-- The state the discard dispatch produces from `c5state`. -/
def c5state2 : ThemeState := { c5state with unmarked_indices := [] }

/-- A session state whose shown-character counter exceeds the current text's
length (reachable: the counter accumulates across labeled records, see C10). -/
def c8bad : ThemeState := { init_state [] [] [] 2 with chars_showed := 5 }

/-- A small state for the C8 witness: budget 2, nothing shown yet. -/
def c8w : ThemeState := init_state [] [] [] 2

/-- Unmarked table for the C9 counterexample: two rows with identifiers 1, 2. -/
def c9unmarked : List Row := [⟨1, some ("a"), none⟩, ⟨2, some ("b"), none⟩]

/-- Marked destination for the C9 counterexample: already holds the row with
identifier value 1. -/
def c9marked : List (Int × Row) := [(0, ⟨1, some ("a"), some ("x")⟩)]

/-- A one-row session for the C6 witness. -/
def c6s : ThemeState := init_state [⟨1, some ("hello"), none⟩] [] [0] 500

/-- The state produced by labeling the front row of `c6s` with "pos". -/
def c6s2 : ThemeState :=
  { c6s with
    marked := [(0, ⟨1, some ("hello"), some ("pos")⟩)]
    action_history := [HistAct.write]
    unmarked_indices := []
    marked_indices := [0] }

/-- A one-row session for the C7 witness, with a nonzero counter so the
reset is visible. -/
def c7s : ThemeState := { init_state [⟨1, some ("hello"), none⟩] [] [0] 500 with chars_showed := 3 }

/-- The state produced by skipping the front row of `c7s`. -/
def c7s2 : ThemeState :=
  { c7s with
    action_history := [HistAct.skip]
    unmarked_indices := []
    skipped := [0]
    chars_showed := 0 }

/-- A one-row session for the C10 witness, with a nonzero counter carried
over from earlier records. -/
def c10s : ThemeState := { init_state [⟨1, some ("hello"), none⟩] [] [0] 500 with chars_showed := 7 }

/-- The state produced by labeling the front row of `c10s` with "pos". -/
def c10s2 : ThemeState :=
  { c10s with
    marked := [(0, ⟨1, some ("hello"), some ("pos")⟩)]
    action_history := [HistAct.write]
    unmarked_indices := []
    marked_indices := [0] }

/-- A small state for the C5 witness: fresh session over three rows. -/
def c5w : ThemeState := init_state [⟨1, some ("a"), none⟩, ⟨2, some ("b"), none⟩, ⟨3, some ("c"), none⟩] [] [2, 0, 1] 500

theorem getLast?_some_concat {α : Type} (l : List α) (a : α) (h : l.getLast? = some a) :
    l = l.dropLast ++ [a] := by
  induction l with
  | nil => cases h
  | cons x xs ih =>
    cases xs with
    | nil =>
      simp only [List.getLast?_singleton, Option.some.injEq] at h
      simp [h]
    | cons y ys =>
      rw [List.getLast?_cons_cons] at h
      have h2 := ih h
      show x :: (y :: ys) = x :: (y :: ys).dropLast ++ [a]
      conv_lhs => rw [h2]
      rfl

theorem length_le_of_nodup_bound (l : List Nat) (n : Nat) (hn : l.Nodup)
    (hb : ∀ i ∈ l, i < n) : l.length ≤ n := by
  have h1 : l.toFinset ⊆ Finset.range n := by
    intro a ha
    exact Finset.mem_range.mpr (hb a (List.mem_toFinset.mp ha))
  have h2 := Finset.card_le_card h1
  rwa [List.toFinset_card_of_nodup hn, Finset.card_range] at h2

theorem perm_requeue_skipped (i : Nat) (q sk mk : List Nat) :
    List.Perm (q ++ ((sk ++ [i]) ++ mk)) ((i :: q) ++ (sk ++ mk)) := by
  have h1 : List.Perm ((sk ++ [i]) ++ mk) (i :: (sk ++ mk)) :=
    (List.perm_append_singleton i sk).append_right mk
  exact (h1.append_left q).trans List.perm_middle

theorem perm_requeue_marked (i : Nat) (q sk mk : List Nat) :
    List.Perm (q ++ (sk ++ (mk ++ [i]))) ((i :: q) ++ (sk ++ mk)) := by
  have h1 : List.Perm (mk ++ [i]) (i :: mk) := List.perm_append_singleton i mk
  have h2 : List.Perm (sk ++ (mk ++ [i])) (i :: (sk ++ mk)) :=
    (h1.append_left sk).trans List.perm_middle
  exact (h2.append_left q).trans List.perm_middle

theorem sessionInv_of_perm (s2 s : ThemeState)
    (hp : List.Perm (allIdx s2) (allIdx s))
    (hu : s2.unmarked.length = s.unmarked.length)
    (h : SessionInv s) : SessionInv s2 := by
  refine ⟨hp.nodup_iff.mpr h.1, ?_⟩
  intro i hi
  rw [hu]
  exact h.2 i (hp.mem_iff.mp hi)

theorem sessionInv_discard (s s2 : ThemeState) (h : SessionInv s)
    (he : discard_op s = some s2) : SessionInv s2 := by
  cases hq : s.unmarked_indices with
  | nil => rw [discard_op, hq] at he; cases he
  | cons i rest =>
    rw [discard_op, hq] at he
    injection he with he2
    subst he2
    obtain ⟨hn, hb⟩ := h
    have hall : allIdx s = i :: (rest ++ (s.skipped ++ s.marked_indices)) := by
      rw [allIdx, hq]; rfl
    rw [hall] at hn hb
    refine ⟨hn.of_cons, ?_⟩
    intro j hj
    exact hb j (List.mem_cons_of_mem i hj)

theorem sessionInv_skip (s s2 : ThemeState) (h : SessionInv s)
    (he : skip_op s = some s2) : SessionInv s2 := by
  cases hq : s.unmarked_indices with
  | nil => rw [skip_op, hq] at he; cases he
  | cons i rest =>
    rw [skip_op, hq] at he
    injection he with he2
    subst he2
    refine sessionInv_of_perm _ s ?_ rfl h
    have hall : allIdx s = (i :: rest) ++ (s.skipped ++ s.marked_indices) := by
      rw [allIdx, hq]
    rw [hall]
    exact perm_requeue_skipped i rest s.skipped s.marked_indices

theorem sessionInv_label (s s2 : ThemeState) (lbl : String) (h : SessionInv s)
    (he : label_op s lbl = some s2) : SessionInv s2 := by
  cases hq : s.unmarked_indices with
  | nil => exact Option.noConfusion (by simpa only [label_op, hq] using he)
  | cons i rest =>
    cases hr : s.unmarked.get? i with
    | none => exact Option.noConfusion (by simpa only [label_op, hq, hr] using he)
    | some row =>
      simp only [label_op, hq, hr, Option.some.injEq] at he
      subst he
      refine sessionInv_of_perm _ s ?_ rfl h
      have hall : allIdx s = (i :: rest) ++ (s.skipped ++ s.marked_indices) := by
        rw [allIdx, hq]
      rw [hall]
      exact perm_requeue_marked i rest s.skipped s.marked_indices

theorem sessionInv_back (s s2 : ThemeState) (h : SessionInv s)
    (he : back_op s = some s2) : SessionInv s2 := by
  cases hh : s.action_history.getLast? with
  | none =>
    simp only [back_op, hh, Option.some.injEq] at he
    subst he
    exact h
  | some a =>
    cases a with
    | skip =>
      cases hs : s.skipped.getLast? with
      | none => exact Option.noConfusion (by simpa only [back_op, hh, hs] using he)
      | some i =>
        simp only [back_op, hh, hs, Option.some.injEq] at he
        subst he
        refine sessionInv_of_perm _ s ?_ rfl h
        have hall : allIdx s =
            s.unmarked_indices ++ ((s.skipped.dropLast ++ [i]) ++ s.marked_indices) := by
          rw [allIdx]
          conv_lhs => rw [getLast?_some_concat s.skipped i hs]
        rw [hall]
        exact (perm_requeue_skipped i s.unmarked_indices s.skipped.dropLast
          s.marked_indices).symm
    | write =>
      cases hm : s.marked_indices.getLast? with
      | none => exact Option.noConfusion (by simpa only [back_op, hh, hm] using he)
      | some i =>
        simp only [back_op, hh, hm, Option.some.injEq] at he
        subst he
        refine sessionInv_of_perm _ s ?_ rfl h
        have hall : allIdx s =
            s.unmarked_indices ++ (s.skipped ++ (s.marked_indices.dropLast ++ [i])) := by
          rw [allIdx]
          conv_lhs => rw [getLast?_some_concat s.marked_indices i hm]
        rw [hall]
        exact (perm_requeue_marked i s.unmarked_indices s.skipped
          s.marked_indices.dropLast).symm

theorem sessionInv_show_menu (s : ThemeState) (t : Option String) (h : SessionInv s) :
    SessionInv (show_menu_op s t) := by
  cases t with
  | none => exact h
  | some t0 => exact h

theorem sessionInv_more (s : ThemeState) (t : Option String) (h : SessionInv s) :
    SessionInv (more_op s t).1 := by
  cases t with
  | none => exact h
  | some t0 =>
    simp only [more_op]
    split
    · exact h
    · split
      · exact h
      · exact h

theorem sessionInv_init (unmarked : List Row) (marked : List (Int × Row)) (q : List Nat)
    (sc : Nat) (h : List.Perm q (init_indices unmarked.length)) :
    SessionInv (init_state unmarked marked q sc) := by
  constructor
  · show (q ++ ([] ++ [])).Nodup
    simp only [List.append_nil]
    exact h.nodup_iff.mpr (List.nodup_range _)
  · intro i hi
    simp only [allIdx, init_state, List.append_nil] at hi
    exact List.mem_range.mp (h.mem_iff.mp hi)

theorem atMostOne_of_nodup (s : ThemeState) (h : (allIdx s).Nodup) : AtMostOne s := by
  rw [allIdx, List.nodup_append] at h
  obtain ⟨hq, hrest, hdisj⟩ := h
  rw [List.nodup_append] at hrest
  obtain ⟨hsk, hmk, hdisj2⟩ := hrest
  intro i
  refine ⟨?_, ?_⟩
  · intro hiq
    exact ⟨fun hisk => hdisj hiq (List.mem_append_left _ hisk),
      fun himk => hdisj hiq (List.mem_append_right _ himk)⟩
  · intro hisk himk
    exact hdisj2 hisk himk

theorem sum_len_of_sessionInv (s : ThemeState) (h : SessionInv s) :
    s.marked_indices.length + s.skipped.length + s.unmarked_indices.length ≤
      s.unmarked.length := by
  have hlen := length_le_of_nodup_bound (allIdx s) s.unmarked.length h.1 h.2
  simp only [allIdx, List.length_append] at hlen
  omega

instance (s : ThemeState) : Decidable (SessionInv s) := by
  unfold SessionInv
  infer_instance

/-- Claim C1 (code divergence at the failing input): in `c1state` the queue's
front record has identifier 7, which occurs among the identifier values
stored in the marked table, and the index is not in the skip list, so the
claim requires the index to be discarded; but `loop_decision` is
`some false` — the record is rendered and offered to the operator, because
`was_marked` compares the identifier against the marked column's pandas
index labels (here 0), not its values. -/
theorem c1_marked_check_divergence :
    id_among_marked_values c1state 0 = true ∧
    was_skipped c1state 0 = false ∧
    loop_decision c1state = some false := by decide

/-- Claim C2 (code divergence at the failing input): with skip-caching
enabled and the persisted cache mapping session "default" to skipped
indices `[3]`, restarting under the same session name yields a loaded
skipped list of `[]` (the entry is unconditionally reset), not `[3]`; so in
`c2state` — whose skipped list is the freshly loaded `[]` and whose shuffled
queue has the previously skipped index 3 at the front — the row is offered
to the operator instead of being excluded. -/
theorem c2_skip_cache_wiped :
    init_cache true [("default", [3])] ("default") = Except.ok ([("default", [])], []) ∧
    c2state.skipped = [] ∧
    loop_decision c2state = some false :=
  ⟨rfl, rfl, by decide⟩

/-- Claim C3 (code divergence): with skip-caching disabled, session
initialization does not complete successfully for any disk cache and
session name: `self._cache` is never assigned, and the unconditional read
of `self._cache[self._session_name]` raises AttributeError. -/
theorem c3_cache_attr_missing (diskCache : List (String × List Nat)) (sessionName : String) :
    init_cache false diskCache sessionName = Except.error InitCacheError.attrMissing := rfl

/-- Witness for C3 at a concrete input. -/
theorem c3_cache_attr_missing_witness :
    init_cache false [("default", [3])] ("s") = Except.error InitCacheError.attrMissing :=
  c3_cache_attr_missing [("default", [3])] ("s")

/-- Claim C4 (code divergence at the failing input): the configuration in
which neither timed-session option is set — the constructor's default — is
rejected: the unguarded `isinstance(self._label_session_minutes, int)` check
fails on `None` and `_check_values` raises, although the claim says this
configuration is accepted.  A fully set positive configuration passes. -/
theorem c4_defaults_rejected :
    check_session_values none none = Except.error ConfigError.sessionNotInt ∧
    check_session_values (some 25) (some 5) = Except.ok () :=
  ⟨rfl, rfl⟩

/-- Claim C5 counterexample: `c5state` is a legitimate fresh session (one
unmarked row, a marked table read back from disk with one row) at which the
claim as stated fails twice: the marked-table length plus skip-list length
plus queue length exceeds the unmarked-set length, and the discard dispatch
(which the loop indeed takes here: `loop_decision = some true`) leaves
index 0 in none of the queue, the skip list and the marked indices — not in
exactly one of them. -/
theorem c5_counterexample :
    c5state.marked.length + c5state.skipped.length + c5state.unmarked_indices.length >
      c5state.unmarked.length ∧
    loop_decision c5state = some true ∧
    discard_op c5state = some c5state2 ∧
    (0 ∈ c5state.unmarked_indices) ∧
    (0 ∉ c5state2.unmarked_indices ∧ 0 ∉ c5state2.skipped ∧ 0 ∉ c5state2.marked_indices) := by
  decide

/-- Claim C5 (amended): throughout a session, each row index is in at most
one of the pending queue, the skip list and the session-marked index list
(indices discarded as already marked or skipped leave all three), their
summed lengths never exceed the unmarked-set length, and this invariant
holds at startup and is preserved by every dispatch (discard, skip, label,
back, more, and rendering). -/
theorem c5_invariant (s : ThemeState) (h : SessionInv s) :
    (AtMostOne s ∧
      s.marked_indices.length + s.skipped.length + s.unmarked_indices.length ≤
        s.unmarked.length) ∧
    (∀ (unmarked : List Row) (marked : List (Int × Row)) (q : List Nat) (sc : Nat),
      List.Perm q (init_indices unmarked.length) →
      SessionInv (init_state unmarked marked q sc)) ∧
    (∀ s2, discard_op s = some s2 → SessionInv s2) ∧
    (∀ s2, skip_op s = some s2 → SessionInv s2) ∧
    (∀ lbl s2, label_op s lbl = some s2 → SessionInv s2) ∧
    (∀ s2, back_op s = some s2 → SessionInv s2) ∧
    (∀ t, SessionInv (show_menu_op s t)) ∧
    (∀ t, SessionInv (more_op s t).1) :=
  ⟨⟨atMostOne_of_nodup s h.1, sum_len_of_sessionInv s h⟩,
    fun unmarked marked q sc hp => sessionInv_init unmarked marked q sc hp,
    fun s2 he => sessionInv_discard s s2 h he,
    fun s2 he => sessionInv_skip s s2 h he,
    fun lbl s2 he => sessionInv_label s s2 lbl h he,
    fun s2 he => sessionInv_back s s2 h he,
    fun t => sessionInv_show_menu s t h,
    fun t => sessionInv_more s t h⟩

/-- Witness for C5 at a concrete fresh session. -/
theorem c5_invariant_witness :
    SessionInv c5w ∧
    (AtMostOne c5w ∧
      c5w.marked_indices.length + c5w.skipped.length + c5w.unmarked_indices.length ≤
        c5w.unmarked.length) :=
  ⟨by decide, (c5_invariant c5w (by decide)).1⟩

/-- Claim C6: labeling the current row and then invoking back restores the
session to its pre-label state with the counter reset — in particular the
labeled row's index is back at the front of the queue (the whole queue
equals its pre-label value) — and the back step removes the marked table's
last row, leaving the marked table, and hence its size, equal to what it
was before the label was applied. -/
theorem c6_label_back_roundtrip (s s2 : ThemeState) (lbl : String)
    (h : label_op s lbl = some s2) :
    back_op s2 = some { s with chars_showed := 0 } ∧
    s2.marked.dropLast = s.marked ∧
    s2.marked.dropLast.length = s.marked.length := by
  cases hq : s.unmarked_indices with
  | nil => exact Option.noConfusion (by simpa only [label_op, hq] using h)
  | cons i rest =>
    cases hr : s.unmarked.get? i with
    | none => exact Option.noConfusion (by simpa only [label_op, hq, hr] using h)
    | some row =>
      simp only [label_op, hq, hr, Option.some.injEq] at h
      subst h
      refine ⟨?_, List.dropLast_concat, by rw [List.dropLast_concat]⟩
      simp only [back_op, List.getLast?_concat, List.dropLast_concat]

/-- Witness for C6 at a concrete input. -/
theorem c6_label_back_roundtrip_witness :
    label_op c6s ("pos") = some c6s2 ∧
    (back_op c6s2 = some { c6s with chars_showed := 0 } ∧
      c6s2.marked.dropLast = c6s.marked ∧
      c6s2.marked.dropLast.length = c6s.marked.length) :=
  ⟨by decide, c6_label_back_roundtrip c6s c6s2 ("pos") (by decide)⟩

/-- Claim C7: skipping the current row and then invoking back restores the
session to its pre-skip state with the counter reset — the skipped row's
index is back at the front of the queue (the whole queue equals its
pre-skip value) — and the back step removes the index appended to the skip
list, leaving the skip list, and hence its size, equal to what it was
before the skip. -/
theorem c7_skip_back_roundtrip (s s2 : ThemeState)
    (h : skip_op s = some s2) :
    back_op s2 = some { s with chars_showed := 0 } ∧
    s2.skipped.dropLast = s.skipped ∧
    s2.skipped.dropLast.length = s.skipped.length := by
  cases hq : s.unmarked_indices with
  | nil => exact Option.noConfusion (by simpa only [skip_op, hq] using h)
  | cons i rest =>
    simp only [skip_op, hq, Option.some.injEq] at h
    subst h
    refine ⟨?_, List.dropLast_concat, by rw [List.dropLast_concat]⟩
    simp only [back_op, List.getLast?_concat, List.dropLast_concat]

/-- Witness for C7 at a concrete input. -/
theorem c7_skip_back_roundtrip_witness :
    skip_op c7s = some c7s2 ∧
    (back_op c7s2 = some { c7s with chars_showed := 0 } ∧
      c7s2.skipped.dropLast = c7s.skipped ∧
      c7s2.skipped.dropLast.length = c7s.skipped.length) :=
  ⟨by decide, c7_skip_back_roundtrip c7s c7s2 (by decide)⟩

/-- Claim C9 counterexample: at a fresh session over `c9unmarked` (two rows)
with `c9marked` already holding the row with identifier 1, the startup queue
`init_indices` has length 2, not 2 - 1: already-marked rows are not excluded
when the queue is built. -/
theorem c9_counterexample :
    (init_indices c9unmarked.length).length ≠
      c9unmarked.length - count_already_marked c9unmarked c9marked := by decide

/-- Claim C9 (amended): for every fresh session, the sampling queue built at
startup — any shuffle of `init_indices` — has length equal to the number of
unmarked rows; rows whose identifier is already present in the marked
destination are not excluded at startup (they are discarded lazily during
the loop). -/
theorem c9_queue_length (unmarked : List Row) (q : List Nat)
    (h : List.Perm q (init_indices unmarked.length)) :
    q.length = unmarked.length := by
  rw [h.length_eq, init_indices, List.length_range]

/-- Witness for C9 at a concrete input. -/
theorem c9_queue_length_witness :
    List.Perm (init_indices c9unmarked.length) (init_indices c9unmarked.length) ∧
    (init_indices c9unmarked.length).length = c9unmarked.length :=
  ⟨List.Perm.refl _,
    c9_queue_length c9unmarked (init_indices c9unmarked.length) (List.Perm.refl _)⟩

/-- Claim C8 counterexample: in `c8bad` the shown-character offset is 5 —
reachable, since the counter accumulates across labeled records — and a
"more" request on the text "abc" sets the offset to 3: the shown-character
offset decreases, contrary to the claim that it never decreases. -/
theorem c8_offset_decreases :
    (more_op c8bad (some ("abc"))).1.chars_showed < c8bad.chars_showed := by decide

/-- Claim C8 (amended): for every record view whose shown-character offset
does not exceed the text's length, a "more" request reveals only characters
at offsets not previously shown: the offset never decreases and stays at
most the text's length (so repeated requests keep this invariant), an
explicit end is reported exactly when the offset equals the text's length,
and otherwise the revealed chunk starts at the previous offset and advances
it by the character budget (capped at the text's end). -/
theorem c8_more_monotone (s : ThemeState) (t : String) (h : s.chars_showed ≤ t.length) :
    s.chars_showed ≤ (more_op s (some t)).1.chars_showed ∧
    (more_op s (some t)).1.chars_showed ≤ t.length ∧
    ((more_op s (some t)).2 = MoreResult.ended ↔ s.chars_showed = t.length) ∧
    (s.chars_showed < t.length →
      (more_op s (some t)).1.chars_showed = min (s.chars_showed + s.show_chars) t.length ∧
      (more_op s (some t)).2 =
        MoreResult.chunk ((t.drop s.chars_showed).take
          ((more_op s (some t)).1.chars_showed - s.chars_showed))) := by
  by_cases heq : s.chars_showed = t.length
  · simp only [more_op, if_pos heq]
    refine ⟨le_refl _, le_of_eq heq, ?_, fun hlt => absurd heq (Nat.ne_of_lt hlt)⟩
    simp [heq]
  · have hlt : s.chars_showed < t.length := lt_of_le_of_ne h heq
    have hmin : min (s.chars_showed + s.show_chars) t.length ≤ t.length :=
      Nat.min_le_right _ _
    simp only [more_op, if_neg heq, if_pos hmin]
    refine ⟨Nat.le_min.mpr ⟨Nat.le_add_right _ _, h⟩, hmin, ?_, ?_⟩
    · constructor
      · intro hc
        exact absurd hc (by simp)
      · intro hc
        exact absurd hc heq
    · intro hc
      exact ⟨by trivial, by trivial⟩

/-- Witness for C8 at a concrete input. -/
theorem c8_more_monotone_witness :
    c8w.chars_showed ≤ ("abcd" : String).length ∧
    c8w.chars_showed ≤ (more_op c8w (some ("abcd"))).1.chars_showed ∧
    (more_op c8w (some ("abcd"))).1.chars_showed ≤ ("abcd" : String).length :=
  ⟨by decide, (c8_more_monotone c8w ("abcd") (by decide)).1,
    (c8_more_monotone c8w ("abcd") (by decide)).2.1⟩

/-- Claim C10: a label-key dispatch leaves the shown-character counter
unchanged, skip and (effective) back reset it to zero, rendering a record
adds min(text length, character budget) to the existing counter value rather
than replacing it, and consequently the offset used by a "more" request on
the record rendered after a label dispatch includes the characters counted
for previously labeled records. -/
theorem c10_counter_frame :
    (∀ s lbl s2, label_op s lbl = some s2 → s2.chars_showed = s.chars_showed) ∧
    (∀ s s2, skip_op s = some s2 → s2.chars_showed = 0) ∧
    (∀ s a s2, s.action_history.getLast? = some a → back_op s = some s2 →
      s2.chars_showed = 0) ∧
    (∀ s t, (show_menu_op s (some t)).chars_showed =
      s.chars_showed + min t.length s.show_chars) ∧
    (∀ s lbl s2 t, label_op s lbl = some s2 →
      (show_menu_op s2 (some t)).chars_showed =
        s.chars_showed + min t.length s.show_chars) := by
  have hlabel : ∀ (s : ThemeState) (lbl : String) (s2 : ThemeState),
      label_op s lbl = some s2 →
      s2.chars_showed = s.chars_showed ∧ s2.show_chars = s.show_chars := by
    intro s lbl s2 he
    cases hq : s.unmarked_indices with
    | nil => exact Option.noConfusion (by simpa only [label_op, hq] using he)
    | cons i rest =>
      cases hr : s.unmarked.get? i with
      | none => exact Option.noConfusion (by simpa only [label_op, hq, hr] using he)
      | some row =>
        simp only [label_op, hq, hr, Option.some.injEq] at he
        subst he
        exact ⟨rfl, rfl⟩
  refine ⟨fun s lbl s2 he => (hlabel s lbl s2 he).1, ?_, ?_, fun s t => rfl, ?_⟩
  · intro s s2 he
    cases hq : s.unmarked_indices with
    | nil => exact Option.noConfusion (by simpa only [skip_op, hq] using he)
    | cons i rest =>
      simp only [skip_op, hq, Option.some.injEq] at he
      subst he
      rfl
  · intro s a s2 hh he
    cases a with
    | skip =>
      cases hs : s.skipped.getLast? with
      | none => exact Option.noConfusion (by simpa only [back_op, hh, hs] using he)
      | some i =>
        simp only [back_op, hh, hs, Option.some.injEq] at he
        subst he
        rfl
    | write =>
      cases hm : s.marked_indices.getLast? with
      | none => exact Option.noConfusion (by simpa only [back_op, hh, hm] using he)
      | some i =>
        simp only [back_op, hh, hm, Option.some.injEq] at he
        subst he
        rfl
  · intro s lbl s2 t he
    have h2 := hlabel s lbl s2 he
    show s2.chars_showed + min t.length s2.show_chars =
      s.chars_showed + min t.length s.show_chars
    rw [h2.1, h2.2]

/-- Witness for C10 at a concrete input: the counter 7 carried into the
label dispatch survives it, and the next rendering adds on top of it. -/
theorem c10_counter_frame_witness :
    label_op c10s ("pos") = some c10s2 ∧
    c10s2.chars_showed = c10s.chars_showed ∧
    (show_menu_op c10s2 (some ("abc"))).chars_showed =
      c10s.chars_showed + min ("abc" : String).length c10s.show_chars :=
  ⟨by decide, c10_counter_frame.1 c10s ("pos") c10s2 (by decide),
    c10_counter_frame.2.2.2.2 c10s ("pos") c10s2 ("abc") (by decide)⟩
